import Mathlib

/-
Verification of the two core subsystems of the c-nano-playground demos:
the bounded formatted-output engine uprintf/uart_print (src/src/uart_com.c)
and the memory-region catalog of the linker tutorial
(src/documentation/linker/main.c).

Modelling conventions.  The target is the ATmega328P, so the C type int is
16 bits wide (range -32768..32767), unsigned int is 16 bits, pointers are
16 bits and unsigned long is 32 bits.  Signed overflow (the negation of the
most negative int inside uprintf) is modelled as two's-complement
wraparound, which is what avr-gcc emits.  C strings and raw memory are
modelled as List Char: reading past the end of a list yields the byte 0,
so a format string whose terminator is never overrun is represented by its
characters alone, while bytes sitting after the terminator (reachable when
the scanner walks past a trailing directive) are represented by putting the
0 byte and the following bytes into the list explicitly.
-/

namespace CNano

/-- The 0 byte, the C string terminator. -/
def NUL : Char := Char.ofNat 0

/-- Model of uart_print (src/src/uart_com.c lines 28-33): walks the string
and calls uart_transmit (one byte written to the UART data register) per
character until the terminator; the result is the list of transmitted bytes
in transmission order. -/
def uart_print : List Char → List Char
  | [] => []
  | c :: rest => if c = NUL then [] else c :: uart_print rest

/-- Fuel-indexed model of the decimal digit loop of uprintf:
while (val > 0) \x7b temp[temp_idx++] = '0' + (val % 10); val /= 10; \x7d.
Digits are produced least-significant first.  The fuel only bounds the
recursion depth; fuel at least val always suffices because val strictly
decreases under division by 10. -/
def decDigitsF : Nat → Nat → List Char
  | 0, _ => []
  | fuel + 1, v => if v = 0 then [] else Char.ofNat (48 + v % 10) :: decDigitsF fuel (v / 10)

/-- The decimal digit loop run to completion on v. -/
def decDigits (v : Nat) : List Char := decDigitsF v v

/-- The lowercase hex digit table of uprintf. -/
def hex_digits_lower : List Char := "0123456789abcdef".toList

/-- The uppercase hex digit table of uprintf. -/
def hex_digits_upper : List Char := "0123456789ABCDEF".toList

/-- Fuel-indexed model of the hex digit loop of uprintf:
while (val > 0) \x7b temp[temp_idx++] = hex_digits[val & 0xF]; val >>= 4; \x7d. -/
def hexDigitsF (table : List Char) : Nat → Nat → List Char
  | 0, _ => []
  | fuel + 1, v =>
    if v = 0 then [] else table.getD (v &&& 15) '0' :: hexDigitsF table fuel (v >>> 4)

/-- The hex digit loop run to completion on v. -/
def hexDigits (table : List Char) (v : Nat) : List Char := hexDigitsF table v v

/-- Two's-complement wrap into the signed 16-bit range, the effect of AVR
int arithmetic on an out-of-range mathematical result. -/
def wrap16 (z : Int) : Int := (z + 32768) % 65536 - 32768

/-- The value of val after the conditional negation in the %d / %i branch:
if (is_negative) val = -val, with int overflow wrapping at 16 bits. -/
def sdecMag (val : Int) : Int := if val < 0 then wrap16 (-val) else val

/-- Scratch digits produced by the %d / %i branch of uprintf: negate a
negative value (16-bit wrap), push '0' for zero or the decimal digits
least-significant first, then push '-' last for a negative input. -/
def sdecTemp (val : Int) : List Char :=
  (if sdecMag val = 0 then ['0'] else decDigits (sdecMag val).toNat)
    ++ (if val < 0 then ['-'] else [])

/-- Scratch digits produced by the %u branch of uprintf. -/
def udecTemp (v : Nat) : List Char := if v = 0 then ['0'] else decDigits v

/-- Scratch digits produced by the %x / %X / %p digit conversion of
uprintf, in the push (least-significant-first) order. -/
def hexTemp (table : List Char) (v : Nat) : List Char :=
  if v = 0 then ['0'] else hexDigits table v

/-- Model of the bounded reversed-copy loop of uprintf:
while (temp_idx > 0 && buf_idx < 127) buffer[buf_idx++] = temp[--temp_idx].
Popping temp from its end is walking its reverse front to back, so this
loop receives the already reversed scratch list. -/
def copyRevLoop (buf : List Char) : List Char → List Char
  | [] => buf
  | c :: rest => if buf.length < 127 then copyRevLoop (buf ++ [c]) rest else buf

/-- The reversed bounded copy of a scratch digit list into the buffer. -/
def copyRev (buf temp : List Char) : List Char := copyRevLoop buf temp.reverse

/-- Model of the %s copy loop of uprintf:
while (*str && buf_idx < 127) buffer[buf_idx++] = *str++. -/
def copyStr (buf : List Char) : List Char → List Char
  | [] => buf
  | c :: rest =>
    if c = NUL then buf
    else if buf.length < 127 then copyStr (buf ++ [c]) rest else buf

/-- A typed variadic argument.  uprintf reads its arguments with va_arg at
the C types int (%d, %i, %c), unsigned int (%u, %x, %X), const char* (%s)
and void* (%p); reading a directive against a mismatched variant is
undefined behavior in the source and is modelled by a fixed default. -/
inductive Arg where
  | intArg (v : Int)
  | uintArg (v : Nat)
  | strArg (s : List Char)
  | ptrArg (v : Nat)
deriving DecidableEq

/-- The int view of the next variadic argument. -/
def Arg.asInt : Arg → Int
  | .intArg v => v
  | _ => 0

/-- The unsigned int view of the next variadic argument. -/
def Arg.asUint : Arg → Nat
  | .uintArg v => v
  | _ => 0

/-- The const char* view of the next variadic argument. -/
def Arg.asStr : Arg → List Char
  | .strArg s => s
  | _ => []

/-- The pointer view of the next variadic argument, the address value
widened to unsigned long. -/
def Arg.asPtr : Arg → Nat
  | .ptrArg v => v
  | _ => 0

/-- The next va_arg value (reading past the end of the supplied argument
list is undefined behavior in the source, modelled by a default). -/
def vaHead (args : List Arg) : Arg := args.headD (Arg.intArg 0)

/-- Model of the scanning loop of uprintf (src/src/uart_com.c lines
43-141).  mem is the byte sequence starting at the format pointer, buf the
render-buffer contents written so far (so buf_idx = buf.length), args the
remaining variadic arguments.  The loop guard is
while (*p && buf_idx < 127).  On '%' the next byte selects the directive
through the source's else-if chain; an unrecognized byte (including the
terminator itself when '%' ends the string) emits nothing and the scan
resumes two bytes further on.  When mem ends directly after a '%', the C
code reads the byte 0 past the supplied list, matches no directive,
advances past it and then reads 0 again and stops, so the net result is
buf. -/
def uscan : List Arg → List Char → List Char → List Char
  | _, buf, [] => buf
  | args, buf, c :: rest =>
    if c = NUL ∨ 127 ≤ buf.length then buf
    else if c = '%' then
      match rest with
      | [] => buf
      | d :: rest2 =>
        if d = 'd' ∨ d = 'i' then
          uscan args.tail (copyRev buf (sdecTemp (vaHead args).asInt)) rest2
        else if d = 'u' then
          uscan args.tail (copyRev buf (udecTemp (vaHead args).asUint)) rest2
        else if d = 'x' ∨ d = 'X' then
          uscan args.tail
            (copyRev buf
              (hexTemp (if d = 'X' then hex_digits_upper else hex_digits_lower)
                (vaHead args).asUint)) rest2
        else if d = 's' then
          uscan args.tail (copyStr buf (vaHead args).asStr) rest2
        else if d = 'c' then
          uscan args.tail (buf ++ [Char.ofNat ((vaHead args).asInt % 256).toNat]) rest2
        else if d = 'p' then
          uscan args.tail
            (copyRev (buf ++ ['0', 'x']) (hexTemp hex_digits_lower (vaHead args).asPtr)) rest2
        else if d = '%' then
          uscan args (buf ++ ['%']) rest2
        else
          uscan args buf rest2
    else uscan args (buf ++ [c]) rest

/-- The render-buffer contents left by one uprintf call: character k of
this list sits at buffer slot k, and the closing buffer[buf_idx] = 0 write
puts the terminator at slot (renderBuf mem args).length. -/
def renderBuf (mem : List Char) (args : List Arg) : List Char := uscan args [] mem

/-- Model of uprintf (src/src/uart_com.c lines 35-147): render into the
128-byte stack buffer, terminate it, push it through uart_print and return
buf_idx.  The first component is the byte sequence pushed to the UART (one
write per list element, in list order), the second the returned count. -/
def uprintf (mem : List Char) (args : List Arg) : List Char × Nat :=
  (uart_print (renderBuf mem args), (renderBuf mem args).length)

/-- Model of fill_buffers (src/src/main.c lines 30-41): each loop stores
(uint8_t)(expression) at index i, so a buffer's final contents are the cast
expression mapped over the index range. -/
def fill_buffers : List Nat × List Nat × List Nat :=
  ((List.range 128).map fun i => i % 256,
   (List.range 256).map fun i => (i + 128) % 256,
   (List.range 640).map fun i => (i + 384) % 256)

/-- The 128-byte buffer after fill_buffers. -/
def buffer_128 : List Nat := fill_buffers.1

/-- The 256-byte buffer after fill_buffers. -/
def buffer_256 : List Nat := fill_buffers.2.1

/-- The 640-byte buffer after fill_buffers. -/
def buffer_640 : List Nat := fill_buffers.2.2

/-- Modelled from the spec: a declared memory region.  The linker script
that declares the named regions and the symbol pairs consumed by
print_memory_map in src/documentation/linker/main.c (__data_start/__data_end,
__bss_start/__bss_end, __serial_start/__serial_end, __fixed_start/__fixed_end)
is not part of src/, so the region data follows the spec's Region record
\x7bname, storage_class, size_in_bytes, start_symbol, end_symbol\x7d.  The
start and end addresses are independent pieces of data whose consistency
with the declared size is the invariant under test. -/
structure MemRegion where
  name : String
  start : Nat
  endAddr : Nat
  size : Nat
deriving DecidableEq

/-- Modelled from the spec: the catalog of declared regions of the linker
tutorial on the ATmega328P (SRAM 0x0100-0x08FF), with the fixed region
pinned at the documented absolute address 0x0500 (256 bytes) and the serial
region holding the two contiguous 128-byte buffers serial_tx_buffer and
serial_rx_buffer. -/
def regionCatalog : List MemRegion :=
  [⟨".data", 0x0100, 0x0120, 0x20⟩,
   ⟨".bss", 0x0120, 0x0170, 0x50⟩,
   ⟨".serial_buffers", 0x0400, 0x0500, 0x100⟩,
   ⟨".fixed_memory", 0x0500, 0x0600, 0x100⟩,
   ⟨".noinit", 0x0600, 0x0603, 0x3⟩]

/-- Two regions occupy disjoint address ranges. -/
def MemRegion.disjointB (r1 r2 : MemRegion) : Bool :=
  decide (r1.endAddr ≤ r2.start) || decide (r2.endAddr ≤ r1.start)

/-- Every two distinct regions of the list are disjoint. -/
def pairwiseDisjointB : List MemRegion → Bool
  | [] => true
  | r :: rest => rest.all r.disjointB && pairwiseDisjointB rest

/-- Documented decimal rendering (spec section 4.1, step 3): the minimal
decimal digit sequence, most significant digit first, zero rendered as the
single digit 0.  Nat.digits lists the digits least significant first with
no leading zeros. -/
def specDec (n : Nat) : List Char :=
  if n = 0 then ['0'] else ((Nat.digits 10 n).map fun d => Char.ofNat (48 + d)).reverse

/-- Documented signed decimal rendering (spec section 4.1, step 4): a
leading minus sign for a negative value followed by its decimal magnitude. -/
def specSDec (v : Int) : List Char :=
  if v < 0 then '-' :: specDec v.natAbs else specDec v.toNat

/-- Documented hex digit character for a value below 16: 0-9 then a-f
(lowercase) or A-F (uppercase). -/
def specHexChar (upper : Bool) (d : Nat) : Char :=
  if d < 10 then Char.ofNat (48 + d)
  else Char.ofNat ((if upper then 55 else 87) + d)

/-- Documented hex rendering: the minimal hex digit sequence, most
significant digit first, zero rendered as the single digit 0. -/
def specHex (upper : Bool) (n : Nat) : List Char :=
  if n = 0 then ['0'] else ((Nat.digits 16 n).map (specHexChar upper)).reverse

/-- Documented pointer rendering (spec section 4.1, step 6): 0x followed by
the minimal lowercase hex digits, no padding. -/
def specPtr (n : Nat) : List Char := '0' :: 'x' :: specHex false n

lemma digits_length_le (b m k : Nat) (hb : 1 < b) (h : m < b ^ k) :
    (Nat.digits b m).length ≤ k := by
  rcases eq_or_ne m 0 with rfl | hm
  · simp
  · rw [Nat.digits_len b m hb hm]
    have := Nat.log_lt_of_lt_pow hm h
    omega

lemma decDigitsF_eq (fuel v : Nat) (h : v ≤ fuel) :
    decDigitsF fuel v = (Nat.digits 10 v).map fun d => Char.ofNat (48 + d) := by
  induction fuel generalizing v with
  | zero =>
    interval_cases v
    simp [decDigitsF]
  | succ fuel ih =>
    rcases eq_or_ne v 0 with rfl | hv
    · simp [decDigitsF]
    · have hpos : 0 < v := Nat.pos_of_ne_zero hv
      have hlt : v / 10 < v := Nat.div_lt_self hpos (by norm_num)
      rw [decDigitsF, if_neg hv, Nat.digits_def' (by norm_num : (1:Nat) < 10) hpos,
        ih (v / 10) (by omega)]
      simp

lemma decDigits_eq (v : Nat) :
    decDigits v = (Nat.digits 10 v).map fun d => Char.ofNat (48 + d) :=
  decDigitsF_eq v v le_rfl

lemma hexDigitsF_eq (table : List Char) (fuel v : Nat) (h : v ≤ fuel) :
    hexDigitsF table fuel v = (Nat.digits 16 v).map fun d => table.getD d '0' := by
  induction fuel generalizing v with
  | zero =>
    interval_cases v
    simp [hexDigitsF]
  | succ fuel ih =>
    rcases eq_or_ne v 0 with rfl | hv
    · simp [hexDigitsF]
    · have hpos : 0 < v := Nat.pos_of_ne_zero hv
      have hdiv : v >>> 4 = v / 16 := Nat.shiftRight_eq_div_pow v 4
      have hmod : v &&& 15 = v % 16 := by
        have := Nat.and_pow_two_sub_one_eq_mod v 4
        norm_num at this
        exact this
      have hlt : v / 16 < v := Nat.div_lt_self hpos (by norm_num)
      rw [hexDigitsF, if_neg hv, Nat.digits_def' (by norm_num : (1:Nat) < 16) hpos,
        hdiv, hmod, ih (v / 16) (by omega)]
      simp

lemma hexDigits_eq (table : List Char) (v : Nat) :
    hexDigits table v = (Nat.digits 16 v).map fun d => table.getD d '0' :=
  hexDigitsF_eq table v v le_rfl

lemma hex_lower_getD (d : Nat) (hd : d < 16) :
    hex_digits_lower.getD d '0' = specHexChar false d := by
  interval_cases d <;> decide

lemma hex_upper_getD (d : Nat) (hd : d < 16) :
    hex_digits_upper.getD d '0' = specHexChar true d := by
  interval_cases d <;> decide

lemma copyRevLoop_eq_append (l : List Char) (buf : List Char)
    (h : buf.length + l.length ≤ 127) : copyRevLoop buf l = buf ++ l := by
  induction l generalizing buf with
  | nil => simp [copyRevLoop]
  | cons c rest ih =>
    have hlen : buf.length < 127 := by
      simp only [List.length_cons] at h
      omega
    rw [copyRevLoop, if_pos hlen, ih (buf ++ [c]) (by simp at h ⊢; omega)]
    simp

lemma copyRev_small (buf temp : List Char) (h : buf.length + temp.length ≤ 127) :
    copyRev buf temp = buf ++ temp.reverse := by
  rw [copyRev, copyRevLoop_eq_append]
  simpa using h

lemma uart_print_eq_takeWhile (s : List Char) :
    uart_print s = s.takeWhile fun c => c != NUL := by
  induction s with
  | nil => rfl
  | cons c rest ih =>
    by_cases hc : c = NUL
    · subst hc
      simp [uart_print, List.takeWhile_cons]
    · simp [uart_print, List.takeWhile_cons, hc, ih]

lemma uart_print_of_not_mem (s : List Char) (h : NUL ∉ s) : uart_print s = s := by
  induction s with
  | nil => rfl
  | cons c rest ih =>
    have hc : c ≠ NUL := fun hEq => h (hEq ▸ List.mem_cons_self c rest)
    have hr : NUL ∉ rest := fun hm => h (List.mem_cons_of_mem c hm)
    rw [uart_print, if_neg hc, ih hr]

lemma specDec_not_nul (n : Nat) : NUL ∉ specDec n := by
  unfold specDec
  split
  · decide
  · intro hmem
    rw [List.mem_reverse, List.mem_map] at hmem
    obtain ⟨d, hd, hEq⟩ := hmem
    have hd10 : d < 10 := Nat.digits_lt_base (by norm_num) hd
    interval_cases d <;> exact absurd hEq (by decide)

lemma specHex_not_nul (upper : Bool) (n : Nat) : NUL ∉ specHex upper n := by
  unfold specHex
  split
  · decide
  · intro hmem
    rw [List.mem_reverse, List.mem_map] at hmem
    obtain ⟨d, hd, hEq⟩ := hmem
    have hd16 : d < 16 := Nat.digits_lt_base (by norm_num) hd
    cases upper <;> (interval_cases d <;> exact absurd hEq (by decide))

lemma specSDec_not_nul (v : Int) : NUL ∉ specSDec v := by
  unfold specSDec
  split
  · intro hmem
    rcases List.mem_cons.mp hmem with hEq | hmem2
    · exact absurd hEq (by decide)
    · exact specDec_not_nul _ hmem2
  · exact specDec_not_nul _

lemma uscan_stop (args : List Arg) (buf rest : List Char) (c : Char)
    (hb : 127 ≤ buf.length) : uscan args buf (c :: rest) = buf := by
  cases rest <;> simp [uscan, hb]

lemma uscan_nul (args : List Arg) (buf rest : List Char) :
    uscan args buf (NUL :: rest) = buf := by
  cases rest <;> simp [uscan]

lemma uscan_lit (args : List Arg) (buf rest : List Char) (c : Char)
    (hc : c ≠ NUL) (hp : c ≠ '%') (hb : buf.length < 127) :
    uscan args buf (c :: rest) = uscan args (buf ++ [c]) rest := by
  have hb' : ¬ 127 ≤ buf.length := by omega
  cases rest <;> simp [uscan, hc, hp, hb']

lemma uscan_step_d (args : List Arg) (buf rest : List Char) (hb : buf.length < 127) :
    uscan args buf ('%' :: 'd' :: rest) =
      uscan args.tail (copyRev buf (sdecTemp (vaHead args).asInt)) rest := by
  have hb' : ¬ 127 ≤ buf.length := by omega
  simp [uscan, hb', show ('%' : Char) ≠ NUL by decide]

lemma uscan_step_i (args : List Arg) (buf rest : List Char) (hb : buf.length < 127) :
    uscan args buf ('%' :: 'i' :: rest) =
      uscan args.tail (copyRev buf (sdecTemp (vaHead args).asInt)) rest := by
  have hb' : ¬ 127 ≤ buf.length := by omega
  simp [uscan, hb', show ('%' : Char) ≠ NUL by decide]

lemma uscan_step_u (args : List Arg) (buf rest : List Char) (hb : buf.length < 127) :
    uscan args buf ('%' :: 'u' :: rest) =
      uscan args.tail (copyRev buf (udecTemp (vaHead args).asUint)) rest := by
  have hb' : ¬ 127 ≤ buf.length := by omega
  simp [uscan, hb', show ('%' : Char) ≠ NUL by decide]

lemma uscan_step_x (args : List Arg) (buf rest : List Char) (hb : buf.length < 127) :
    uscan args buf ('%' :: 'x' :: rest) =
      uscan args.tail (copyRev buf (hexTemp hex_digits_lower (vaHead args).asUint)) rest := by
  have hb' : ¬ 127 ≤ buf.length := by omega
  simp [uscan, hb', show ('%' : Char) ≠ NUL by decide]

lemma uscan_step_X (args : List Arg) (buf rest : List Char) (hb : buf.length < 127) :
    uscan args buf ('%' :: 'X' :: rest) =
      uscan args.tail (copyRev buf (hexTemp hex_digits_upper (vaHead args).asUint)) rest := by
  have hb' : ¬ 127 ≤ buf.length := by omega
  simp [uscan, hb', show ('%' : Char) ≠ NUL by decide]

lemma uscan_step_p (args : List Arg) (buf rest : List Char) (hb : buf.length < 127) :
    uscan args buf ('%' :: 'p' :: rest) =
      uscan args.tail
        (copyRev (buf ++ ['0', 'x']) (hexTemp hex_digits_lower (vaHead args).asPtr)) rest := by
  have hb' : ¬ 127 ≤ buf.length := by omega
  simp [uscan, hb', show ('%' : Char) ≠ NUL by decide]

lemma udecTemp_reverse_spec (n : Nat) : (udecTemp n).reverse = specDec n := by
  unfold udecTemp specDec
  rcases eq_or_ne n 0 with rfl | hn
  · simp
  · rw [if_neg hn, if_neg hn, decDigits_eq]

lemma hexTemp_reverse_lower (n : Nat) :
    (hexTemp hex_digits_lower n).reverse = specHex false n := by
  unfold hexTemp specHex
  rcases eq_or_ne n 0 with rfl | hn
  · simp
  · rw [if_neg hn, if_neg hn, hexDigits_eq]
    congr 1
    apply List.map_congr_left
    intro d hd
    exact hex_lower_getD d (Nat.digits_lt_base (by norm_num) hd)

lemma hexTemp_reverse_upper (n : Nat) :
    (hexTemp hex_digits_upper n).reverse = specHex true n := by
  unfold hexTemp specHex
  rcases eq_or_ne n 0 with rfl | hn
  · simp
  · rw [if_neg hn, if_neg hn, hexDigits_eq]
    congr 1
    apply List.map_congr_left
    intro d hd
    exact hex_upper_getD d (Nat.digits_lt_base (by norm_num) hd)

lemma sdecMag_of_range (v : Int) (h1 : -32768 < v) (h2 : v < 32768) (hv : v < 0) :
    sdecMag v = -v := by
  unfold sdecMag wrap16
  rw [if_pos hv]
  omega

lemma sdecTemp_reverse_spec (v : Int) (h1 : -32768 < v) (h2 : v < 32768) :
    (sdecTemp v).reverse = specSDec v := by
  unfold sdecTemp specSDec
  by_cases hv : v < 0
  · rw [sdecMag_of_range v h1 h2 hv]
    have hne : -v ≠ 0 := by omega
    have hnat : (-v).toNat = v.natAbs := by omega
    have hnz : v.natAbs ≠ 0 := by omega
    rw [if_neg hne, if_pos hv, if_pos hv, hnat, List.reverse_append, decDigits_eq]
    unfold specDec
    rw [if_neg hnz]
    simp
  · have hmag : sdecMag v = v := if_neg hv
    rw [hmag, if_neg hv, if_neg hv, List.append_nil]
    rcases eq_or_ne v 0 with rfl | hne
    · simp [specDec]
    · have hne' : v.toNat ≠ 0 := by omega
      rw [if_neg hne, decDigits_eq]
      unfold specDec
      rw [if_neg hne']

lemma udecTemp_len (v : Nat) (hv : v < 100000) : (udecTemp v).length ≤ 5 := by
  unfold udecTemp
  split
  · simp
  · rw [decDigits_eq, List.length_map]
    exact digits_length_le 10 v 5 (by norm_num) (by omega)

lemma hexTemp_len (table : List Char) (v k : Nat) (hk : 0 < k) (hv : v < 16 ^ k) :
    (hexTemp table v).length ≤ k := by
  unfold hexTemp
  split
  · simpa using hk
  · rw [hexDigits_eq, List.length_map]
    exact digits_length_le 16 v k (by norm_num) hv

lemma sdecTemp_len (v : Int) (h1 : -32768 < v) (h2 : v < 32768) :
    (sdecTemp v).length ≤ 6 := by
  unfold sdecTemp
  rw [List.length_append]
  have hmag : (sdecMag v).toNat < 100000 := by
    unfold sdecMag wrap16
    split <;> omega
  have hd : (if sdecMag v = 0 then ['0'] else decDigits (sdecMag v).toNat).length ≤ 5 := by
    split
    · simp
    · rw [decDigits_eq, List.length_map]
      exact digits_length_le 10 _ 5 (by norm_num) (by omega)
  have hs : (if v < 0 then ['-'] else ([] : List Char)).length ≤ 1 := by
    split <;> simp
  omega

lemma specPtr_not_nul (n : Nat) : NUL ∉ specPtr n := by
  unfold specPtr
  intro hmem
  rcases List.mem_cons.mp hmem with h0 | hmem2
  · exact absurd h0 (by decide)
  · rcases List.mem_cons.mp hmem2 with hx | hmem3
    · exact absurd hx (by decide)
    · exact specHex_not_nul false n hmem3

lemma uprintf_u_eval (v : Nat) (hv : v < 65536) :
    (uprintf ['%', 'u'] [Arg.uintArg v]).1 = specDec v := by
  have hbuf : renderBuf ['%', 'u'] [Arg.uintArg v] = specDec v := by
    unfold renderBuf
    rw [uscan_step_u _ _ _ (by simp)]
    show uscan [] (copyRev [] (udecTemp v)) [] = specDec v
    rw [uscan, copyRev_small _ _ (by have h5 := udecTemp_len v (by omega); simp; omega),
      List.nil_append, udecTemp_reverse_spec]
  show uart_print (renderBuf ['%', 'u'] [Arg.uintArg v]) = specDec v
  rw [hbuf]
  exact uart_print_of_not_mem _ (specDec_not_nul v)

lemma uprintf_x_eval (v : Nat) (hv : v < 65536) :
    (uprintf ['%', 'x'] [Arg.uintArg v]).1 = specHex false v := by
  have hbuf : renderBuf ['%', 'x'] [Arg.uintArg v] = specHex false v := by
    unfold renderBuf
    rw [uscan_step_x _ _ _ (by simp)]
    show uscan [] (copyRev [] (hexTemp hex_digits_lower v)) [] = specHex false v
    rw [uscan,
      copyRev_small _ _
        (by have h4 := hexTemp_len hex_digits_lower v 4 (by omega) (by omega); simp; omega),
      List.nil_append, hexTemp_reverse_lower]
  show uart_print (renderBuf ['%', 'x'] [Arg.uintArg v]) = specHex false v
  rw [hbuf]
  exact uart_print_of_not_mem _ (specHex_not_nul false v)

lemma uprintf_X_eval (v : Nat) (hv : v < 65536) :
    (uprintf ['%', 'X'] [Arg.uintArg v]).1 = specHex true v := by
  have hbuf : renderBuf ['%', 'X'] [Arg.uintArg v] = specHex true v := by
    unfold renderBuf
    rw [uscan_step_X _ _ _ (by simp)]
    show uscan [] (copyRev [] (hexTemp hex_digits_upper v)) [] = specHex true v
    rw [uscan,
      copyRev_small _ _
        (by have h4 := hexTemp_len hex_digits_upper v 4 (by omega) (by omega); simp; omega),
      List.nil_append, hexTemp_reverse_upper]
  show uart_print (renderBuf ['%', 'X'] [Arg.uintArg v]) = specHex true v
  rw [hbuf]
  exact uart_print_of_not_mem _ (specHex_not_nul true v)

lemma uprintf_p_eval (v : Nat) (hv : v < 65536) :
    (uprintf ['%', 'p'] [Arg.ptrArg v]).1 = specPtr v := by
  have hbuf : renderBuf ['%', 'p'] [Arg.ptrArg v] = specPtr v := by
    unfold renderBuf
    rw [uscan_step_p _ _ _ (by simp)]
    show uscan [] (copyRev (['0', 'x']) (hexTemp hex_digits_lower v)) [] = specPtr v
    rw [uscan,
      copyRev_small _ _
        (by have h4 := hexTemp_len hex_digits_lower v 4 (by omega) (by omega); simp; omega),
      hexTemp_reverse_lower]
    rfl
  show uart_print (renderBuf ['%', 'p'] [Arg.ptrArg v]) = specPtr v
  rw [hbuf]
  exact uart_print_of_not_mem _ (specPtr_not_nul v)

lemma uprintf_d_eval (v : Int) (h1 : -32768 < v) (h2 : v < 32768) :
    (uprintf ['%', 'd'] [Arg.intArg v]).1 = specSDec v := by
  have hbuf : renderBuf ['%', 'd'] [Arg.intArg v] = specSDec v := by
    unfold renderBuf
    rw [uscan_step_d _ _ _ (by simp)]
    show uscan [] (copyRev [] (sdecTemp v)) [] = specSDec v
    rw [uscan, copyRev_small _ _ (by have h6 := sdecTemp_len v h1 h2; simp; omega),
      List.nil_append, sdecTemp_reverse_spec v h1 h2]
  show uart_print (renderBuf ['%', 'd'] [Arg.intArg v]) = specSDec v
  rw [hbuf]
  exact uart_print_of_not_mem _ (specSDec_not_nul v)

lemma uprintf_i_eval (v : Int) (h1 : -32768 < v) (h2 : v < 32768) :
    (uprintf ['%', 'i'] [Arg.intArg v]).1 = specSDec v := by
  have hbuf : renderBuf ['%', 'i'] [Arg.intArg v] = specSDec v := by
    unfold renderBuf
    rw [uscan_step_i _ _ _ (by simp)]
    show uscan [] (copyRev [] (sdecTemp v)) [] = specSDec v
    rw [uscan, copyRev_small _ _ (by have h6 := sdecTemp_len v h1 h2; simp; omega),
      List.nil_append, sdecTemp_reverse_spec v h1 h2]
  show uart_print (renderBuf ['%', 'i'] [Arg.intArg v]) = specSDec v
  rw [hbuf]
  exact uart_print_of_not_mem _ (specSDec_not_nul v)

lemma uscan_step_unknown (args : List Arg) (buf suf : List Char) (c : Char)
    (h1 : c ≠ 'd') (h2 : c ≠ 'i') (h3 : c ≠ 'u') (h4 : c ≠ 'x') (h5 : c ≠ 'X')
    (h6 : c ≠ 's') (h7 : c ≠ 'c') (h8 : c ≠ 'p') (h9 : c ≠ '%') :
    uscan args buf ('%' :: c :: suf) = uscan args buf suf := by
  by_cases hb : 127 ≤ buf.length
  · rw [uscan_stop args buf _ _ hb]
    cases suf with
    | nil => rfl
    | cons c2 rest2 => rw [uscan_stop args buf _ _ hb]
  · have hb' : ¬ 127 ≤ buf.length := hb
    simp [uscan, hb', h1, h2, h3, h4, h5, h6, h7, h8, h9,
      show ('%' : Char) ≠ NUL by decide]

lemma getD_range_map (f : Nat → Nat) (n i : Nat) (h : i < n) :
    ((List.range n).map f).getD i 0 = f i := by
  rw [List.getD_eq_getElem?_getD, List.getElem?_map, List.getElem?_range h]
  rfl

/-- The format string and the arguments of the spec's end-to-end scenario. -/
def c5_format : List Char := "Value: %d, hex: %X, str: %s!".toList

/-- The argument list of the spec's end-to-end scenario. -/
def c5_args : List Arg :=
  [Arg.intArg (-42), Arg.uintArg 255, Arg.strArg "ok".toList]

/-- C1 counterexample: the claim promises the signed decimal digit sequence
for every argument value, but at the most negative int (-32768 on the
16-bit AVR target) the magnitude negation wraps back to a negative value,
the digit loop body never runs, and only the sign is emitted: %i on -32768
pushes just "-" instead of "-32768". -/
theorem C1_counterexample :
    (uprintf ['%', 'i'] [Arg.intArg (-32768)]).1 = ['-'] ∧
    (uprintf ['%', 'i'] [Arg.intArg (-32768)]).1 ≠ ['-', '3', '2', '7', '6', '8'] := by
  decide

/-- C1 (amended to exclude the most negative int for %d / %i, which the
negation overflow turns into a bare "-"): for every other argument value of
the AVR-width argument types, render pushes to the sink exactly the
documented rendering: signed decimal digits for %d and %i, unsigned decimal
digits for %u, minimal lowercase hex digits for %x, minimal uppercase hex
digits for %X, and 0x followed by the minimal lowercase hex digits, no
padding, for %p. -/
theorem C1_renderings :
    (∀ v : Int, -32768 < v → v < 32768 →
      (uprintf ['%', 'd'] [Arg.intArg v]).1 = specSDec v ∧
      (uprintf ['%', 'i'] [Arg.intArg v]).1 = specSDec v) ∧
    (∀ v : Nat, v < 65536 → (uprintf ['%', 'u'] [Arg.uintArg v]).1 = specDec v) ∧
    (∀ v : Nat, v < 65536 → (uprintf ['%', 'x'] [Arg.uintArg v]).1 = specHex false v) ∧
    (∀ v : Nat, v < 65536 → (uprintf ['%', 'X'] [Arg.uintArg v]).1 = specHex true v) ∧
    (∀ v : Nat, v < 65536 → (uprintf ['%', 'p'] [Arg.ptrArg v]).1 = specPtr v) :=
  ⟨fun v h1 h2 => ⟨uprintf_d_eval v h1 h2, uprintf_i_eval v h1 h2⟩,
   fun v hv => uprintf_u_eval v hv,
   fun v hv => uprintf_x_eval v hv,
   fun v hv => uprintf_X_eval v hv,
   fun v hv => uprintf_p_eval v hv⟩

/-- C1 witness: the amended rendering theorem applied at -5 for %d and at
171 (0xAB) for %X, %x and %u, with every hypothesis discharged on the
concrete input. -/
theorem C1_renderings_witness :
    ((-32768 : Int) < -5 ∧ (-5 : Int) < 32768 ∧
      (uprintf ['%', 'd'] [Arg.intArg (-5)]).1 = specSDec (-5)) ∧
    ((171 : Nat) < 65536 ∧
      (uprintf ['%', 'u'] [Arg.uintArg 171]).1 = specDec 171 ∧
      (uprintf ['%', 'x'] [Arg.uintArg 171]).1 = specHex false 171 ∧
      (uprintf ['%', 'X'] [Arg.uintArg 171]).1 = specHex true 171 ∧
      (uprintf ['%', 'p'] [Arg.ptrArg 171]).1 = specPtr 171) :=
  ⟨⟨by decide, by decide, (C1_renderings.1 (-5) (by decide) (by decide)).1⟩,
   ⟨by decide, C1_renderings.2.1 171 (by decide), C1_renderings.2.2.1 171 (by decide),
    C1_renderings.2.2.2.1 171 (by decide), C1_renderings.2.2.2.2 171 (by decide)⟩⟩

set_option maxRecDepth 40000 in
/-- C2: the claim says no byte, terminator included, is ever written past
slot 127, but the %p branch writes its "0x" marker with two unchecked
stores.  Entering the branch with buf_idx = 126 (here: 126 literal
characters and then %p) stores 'x' at slot 127 and leaves buf_idx = 128, so
the closing buffer[buf_idx] = 0 write lands at slot 128, one past the end
of the 128-byte array. -/
theorem C2_cursor_exceeds_capacity :
    (renderBuf (List.replicate 126 'a' ++ ['%', 'p']) [Arg.ptrArg 291]).length = 128 ∧
    127 < (renderBuf (List.replicate 126 'a' ++ ['%', 'p']) [Arg.ptrArg 291]).length := by
  decide

/-- C3 counterexample: %c with argument 0 stores a 0 byte in the buffer, so
uart_print stops at it; the call returns 1 but pushes 0 characters to the
sink, so the returned count is not the number of characters pushed. -/
theorem C3_counterexample :
    (uprintf ['%', 'c'] [Arg.intArg 0]).2 = 1 ∧
    ((uprintf ['%', 'c'] [Arg.intArg 0]).1).length = 0 := by
  decide

/-- C3 (amended): the returned count equals the number of characters
buffered, and the sink receives the buffered characters in buffered order
truncated at the first 0 byte - which only a %c directive with argument 0
can introduce.  Whenever the buffered output contains no 0 byte, the pushed
characters are exactly the buffered ones in order and the returned count
equals the number of characters pushed. -/
theorem C3_count_matches_sink (mem : List Char) (args : List Arg)
    (h : NUL ∉ renderBuf mem args) :
    (uprintf mem args).1 = renderBuf mem args ∧
    (uprintf mem args).2 = ((uprintf mem args).1).length := by
  have h1 : (uprintf mem args).1 = renderBuf mem args := uart_print_of_not_mem _ h
  exact ⟨h1, by rw [h1]; rfl⟩

/-- C3 witness: the amended theorem applied to the two-character literal
format "hi" with no arguments. -/
theorem C3_count_matches_sink_witness :
    NUL ∉ renderBuf ['h', 'i'] [] ∧
    ((uprintf ['h', 'i'] []).1 = renderBuf ['h', 'i'] [] ∧
     (uprintf ['h', 'i'] []).2 = ((uprintf ['h', 'i'] []).1).length) :=
  ⟨by decide, C3_count_matches_sink ['h', 'i'] [] (by decide)⟩

/-- C4: the claim requires the minimum representable signed value to render
as its full digit sequence without overflow, but the magnitude computation
val = -val overflows exactly there: on the 16-bit AVR int, -(-32768) wraps
back to -32768, the while (val > 0) digit loop never runs, and the output
is the bare sign "-" instead of "-32768". -/
theorem C4_min_int_magnitude_overflows :
    uprintf ['%', 'd'] [Arg.intArg (-32768)] = (['-'], 1) ∧
    (['-'] : List Char) ≠ ['-', '3', '2', '7', '6', '8'] := by
  decide

set_option maxRecDepth 8000 in
/-- C5 counterexample: the scenario render("Value: %d, hex: %X, str: %s!",
-42, 255, "ok") produces the 29-character string
"Value: -42, hex: FF, str: ok!", so the returned count is 29, not the 30
the claim states. -/
theorem C5_counterexample :
    (uprintf c5_format c5_args).2 = 29 ∧ (29 : Nat) ≠ 30 := by
  decide

set_option maxRecDepth 8000 in
/-- C5 (amended: character count 29 instead of 30): the scenario produces
exactly "Value: -42, hex: FF, str: ok!", pushes those characters to the
sink in that exact order and returns 29. -/
theorem C5_scenario :
    uprintf c5_format c5_args = ("Value: -42, hex: FF, str: ok!".toList, 29) := by
  decide

/-- C6 counterexample: for a '%' that is the final character of the format
string the scan does not stop at the string: it consumes the terminator
itself as the directive byte and continues past the end of the string, so
the bytes sitting after the terminator (here "XY") are emitted;
uprintf on the string "a%" followed in memory by "XY" outputs "aXY", not
"a". -/
theorem C6_counterexample :
    uprintf ['a', '%', NUL, 'X', 'Y'] [] = (['a', 'X', 'Y'], 3) ∧
    (uprintf ['a', '%', NUL, 'X', 'Y'] []).1 ≠ ['a'] := by
  decide

/-- C6 (amended to cover only a directive byte lying inside the string):
whenever '%' is followed by an in-string character that is none of the
recognized directive kinds, the engine consumes exactly that character,
emits nothing, and resumes scanning right after it - at every scan position
(arbitrary buffer prefix and remaining arguments).  A '%' that is the final
character instead consumes the terminator itself and the scan runs past
the end of the string (see the counterexample). -/
theorem C6_unknown_directive_skipped (c : Char) (args : List Arg) (buf suf : List Char)
    (h1 : c ≠ 'd') (h2 : c ≠ 'i') (h3 : c ≠ 'u') (h4 : c ≠ 'x') (h5 : c ≠ 'X')
    (h6 : c ≠ 's') (h7 : c ≠ 'c') (h8 : c ≠ 'p') (h9 : c ≠ '%') (h10 : c ≠ NUL) :
    uscan args buf ('%' :: c :: suf) = uscan args buf suf := by
  have _ := h10
  exact uscan_step_unknown args buf suf c h1 h2 h3 h4 h5 h6 h7 h8 h9

/-- C6 witness: the amended skip theorem applied to the unrecognized
directive byte 'q' at the start of the format "%qz". -/
theorem C6_unknown_directive_skipped_witness :
    (('q' : Char) ≠ 'd' ∧ ('q' : Char) ≠ '%' ∧ ('q' : Char) ≠ NUL) ∧
    uscan [] [] ('%' :: 'q' :: ['z']) = uscan [] [] ['z'] :=
  ⟨⟨by decide, by decide, by decide⟩,
   C6_unknown_directive_skipped 'q' [] [] ['z'] (by decide) (by decide) (by decide)
     (by decide) (by decide) (by decide) (by decide) (by decide) (by decide) (by decide)⟩

/-- C7: every numeric directive renders the argument value zero as the
single digit '0', and %p with a null address renders "0x0" through the same
digit-conversion loop as hex. -/
theorem C7_zero_renders_as_zero :
    uprintf ['%', 'd'] [Arg.intArg 0] = (['0'], 1) ∧
    uprintf ['%', 'i'] [Arg.intArg 0] = (['0'], 1) ∧
    uprintf ['%', 'u'] [Arg.uintArg 0] = (['0'], 1) ∧
    uprintf ['%', 'x'] [Arg.uintArg 0] = (['0'], 1) ∧
    uprintf ['%', 'X'] [Arg.uintArg 0] = (['0'], 1) ∧
    uprintf ['%', 'p'] [Arg.ptrArg 0] = (['0', 'x', '0'], 3) := by
  decide

/-- C8: in the modelled region catalog every declared region satisfies
end_symbol - start_symbol = declared_size, and the declared regions are
pairwise disjoint. -/
theorem C8_region_consistency :
    (regionCatalog.all fun r => r.endAddr - r.start == r.size) = true ∧
    pairwiseDisjointB regionCatalog = true := by
  decide

/-- C9: uart_print transmits exactly the bytes strictly before the first
0 byte, one transmit call per byte, in order; in particular the empty
string transmits nothing, and the terminator itself is never transmitted. -/
theorem C9_uart_print_stops_at_nul :
    (∀ s : List Char, uart_print s = s.takeWhile fun c => c != NUL) ∧
    uart_print [] = [] :=
  ⟨uart_print_eq_takeWhile, rfl⟩

set_option maxRecDepth 8000 in
/-- C10: after fill_buffers, buffer_128[i] = i, buffer_256[i] =
(i + 128) mod 256 and buffer_640[i] = (i + 384) mod 256 for every valid
index i. -/
theorem C10_fill_buffers_contents (i : Nat) :
    (i < 128 → buffer_128.getD i 0 = i) ∧
    (i < 256 → buffer_256.getD i 0 = (i + 128) % 256) ∧
    (i < 640 → buffer_640.getD i 0 = (i + 384) % 256) := by
  refine ⟨fun h => ?_, fun h => ?_, fun h => ?_⟩
  · show (((List.range 128).map fun i => i % 256).getD i 0) = i
    rw [getD_range_map _ _ _ h, Nat.mod_eq_of_lt (by omega)]
  · show (((List.range 256).map fun i => (i + 128) % 256).getD i 0) = (i + 128) % 256
    rw [getD_range_map _ _ _ h]
  · show (((List.range 640).map fun i => (i + 384) % 256).getD i 0) = (i + 384) % 256
    rw [getD_range_map _ _ _ h]

/-- C10 witness: the contents theorem applied at the three spot indices of
the claim, giving buffer_128[10] = 10, buffer_256[200] = 72 and
buffer_640[500] = 116. -/
theorem C10_fill_buffers_contents_witness :
    (10 < 128 ∧ buffer_128.getD 10 0 = 10) ∧
    (200 < 256 ∧ buffer_256.getD 200 0 = (200 + 128) % 256) ∧
    (500 < 640 ∧ buffer_640.getD 500 0 = (500 + 384) % 256) :=
  ⟨⟨by decide, (C10_fill_buffers_contents 10).1 (by decide)⟩,
   ⟨by decide, (C10_fill_buffers_contents 200).2.1 (by decide)⟩,
   ⟨by decide, (C10_fill_buffers_contents 500).2.2 (by decide)⟩⟩

end CNano
